import Mathlib

/-!
Shallow embedding of the level-session engine of the valentines-invite
repository (src/app/index.tsx, a React Native mini-game component).

The component keeps its session state in React state hooks and refs:
phase, levelIndex, score, timeLeft (whole seconds), heartsRef (the live
falling hearts), and two interval handles (tickTimer, spawnTimer).
The functions startLevel, endLevel, spawnHeart, onTapHeart, clearTimers
and clearHearts are translated below; the UI event sources (button
presses, interval firings, animation completions) are modelled as an
explicit event type with a step function, all single-threaded as in the
JavaScript event loop.

Modelling conventions:
* Heart ids: the source generates unique string ids with uid()
  (timestamp plus random suffix).  We model ids as naturals drawn from a
  counter (nextId); uniqueness of uid() is exactly what the counter
  gives.  The random presentation attributes x, size and the fall jitter
  are floats irrelevant to every claim and are not carried.
* A heart is in the hearts list exactly while its fall animation is
  running: onTapHeart stops the animation and removes the heart
  together, clearHearts stops all animations and empties the list
  together, and the natural-completion callback removes the heart.
  Hence the list of ids suffices as the registry state.
* Stale closure: the tick interval created in startLevel (lines
  121-132) invokes the endLevel constant of the render in which
  startLevel executed, and that closure read the score value of that
  same render - the value BEFORE setScore(0) took effect.  Re-renders
  caused by taps produce new endLevel closures, but the interval keeps
  the old one.  We record that captured value in the capturedScore
  field; expiry-driven resolution reads it, while the Finish button
  (line 416) calls the current render's endLevel, which reads the live
  score.
* endLevel defers clearHearts by a 250 ms setTimeout (line 147) which
  is never cancelled; outstanding instances are counted in
  pendingClears and fire as the eGrace event.
* The optional haptics collaborator: successHaptic() is called exactly
  when endLevel computes a pass (line 144); we count those calls in
  successFeedbacks so that the pass determination is observable.
-/

/-- LevelConfig mirrors one entry of the LEVELS array (lines 41-66):
level ordinal, duration, target score, spawn cadence and fall time. -/
structure LevelConfig where
  level : Nat
  durationMs : Nat
  target : Nat
  spawnEveryMs : Nat
  fallMs : Nat
deriving DecidableEq

/-- The LEVELS catalog, verbatim from lines 42-64. -/
def LEVELS : List LevelConfig :=
  [⟨1, 20000, 18, 700, 2800⟩,
   ⟨2, 20000, 22, 600, 2400⟩,
   ⟨3, 22000, 26, 520, 2100⟩]

/-- Phase mirrors the Phase union type of line 23. -/
inductive Phase where
  | intro
  | playing
  | reward
  | proposal
deriving DecidableEq

/-- GameState gathers the component state the engine mutates. -/
structure GameState where
  phase : Phase
  levelIndex : Nat
  score : Nat
  /-- timeLeft is stored in whole seconds (setTimeLeft, lines 116 and 127). -/
  timeLeft : Nat
  /-- score value captured by the tick interval's endLevel closure at
  startLevel time (see the stale-closure note in the file header). -/
  capturedScore : Nat
  /-- ids of live hearts; membership coincides with the fall animation
  of that heart still running. -/
  hearts : List Nat
  /-- id counter modelling uid() uniqueness. -/
  nextId : Nat
  /-- tickTimer.current is non-null. -/
  tickActive : Bool
  /-- spawnTimer.current is non-null. -/
  spawnActive : Bool
  /-- outstanding setTimeout(clearHearts, 250) callbacks from endLevel. -/
  pendingClears : Nat
  /-- number of successHaptic() calls made so far. -/
  successFeedbacks : Nat
deriving DecidableEq

/-- clearTimers (lines 82-87): stop both intervals. -/
def clearTimers (s : GameState) : GameState :=
  { s with tickActive := false, spawnActive := false }

/-- clearHearts (lines 89-94): stop every fall animation and empty the list. -/
def clearHearts (s : GameState) : GameState :=
  { s with hearts := [] }

/-- Result of a call that may let a JavaScript exception escape; threw
carries the component state at the moment of the throw (state setters
already executed keep their effect). -/
inductive CallResult where
  | ok (s : GameState)
  | threw (s : GameState)
deriving DecidableEq

/-- startLevel (lines 110-138).  There is no index validation: for an
out-of-range idx, LEVELS[idx] is undefined and reading durationMs on
line 116 throws a TypeError - after clearTimers, clearHearts,
setLevelIndex(idx) and setScore(0) already happened.  For a valid idx
the countdown and spawner start and the tick interval closure captures
the pre-reset score (capturedScore). -/
def startLevel (idx : Nat) (s : GameState) : CallResult :=
  let s1 := clearHearts (clearTimers s)
  let s2 := { s1 with levelIndex := idx, score := 0 }
  match LEVELS.get? idx with
  | none => CallResult.threw s2
  | some lv =>
      CallResult.ok { s2 with
        timeLeft := (lv.durationMs + 999) / 1000,
        phase := Phase.playing,
        capturedScore := s.score,
        tickActive := true,
        spawnActive := true }

/-- The component state after a startLevel call, whether or not the
TypeError escaped (scheduled state updates survive the throw). -/
def startLevelState (idx : Nat) (s : GameState) : GameState :=
  match startLevel idx s with
  | CallResult.ok t => t
  | CallResult.threw t => t

/-- The value stored by setTimeLeft on each tick (lines 122-127):
Math.max(0, Math.ceil((durationMs - elapsed) / 1000)), whole seconds. -/
def tickLeft (durationMs elapsedMs : Nat) : Nat :=
  if durationMs ≤ elapsedMs then 0 else (durationMs - elapsedMs + 999) / 1000

/-- endLevel (lines 140-162), parameterised by the score value the
closure reads (readScore): the live score for the Finish button, the
stale capturedScore for the tick-interval path.  Stops both timers,
fires the success haptic iff passed, schedules the deferred clearHearts,
and routes to reward (retry or next level) or proposal (final pass). -/
def endLevel (readScore idx : Nat) (s : GameState) : GameState :=
  let s1 := clearTimers s
  match LEVELS.get? idx with
  | none => s1
  | some lv =>
      let s2 := { s1 with
        successFeedbacks :=
          s1.successFeedbacks + (if lv.target ≤ readScore then 1 else 0),
        pendingClears := s1.pendingClears + 1 }
      if lv.target ≤ readScore then
        if idx < LEVELS.length - 1 then { s2 with phase := Phase.reward }
        else { s2 with phase := Phase.proposal }
      else { s2 with phase := Phase.reward }

/-- spawnHeart (lines 164-197): push a heart with a fresh id and start
its fall animation.  The random x, size and duration jitter are
presentation values not carried here. -/
def spawnHeart (s : GameState) : GameState :=
  { s with hearts := s.hearts ++ [s.nextId], nextId := s.nextId + 1 }

/-- onTapHeart (lines 199-211): if the id is still live, stop its
animation, remove it and increment the score; otherwise do nothing
(the find on line 202 misses and the handler returns). -/
def onTapHeart (i : Nat) (s : GameState) : GameState :=
  if i ∈ s.hearts then
    { s with hearts := s.hearts.filter (fun x => x ≠ i), score := s.score + 1 }
  else s

/-- The fall-animation completion callback with finished = true (lines
190-196): remove the heart from the list, no score change.  A stopped
animation reports finished = false and the callback returns without
touching state, which coincides with the filter being a no-op. -/
def onFallComplete (i : Nat) (s : GameState) : GameState :=
  { s with hearts := s.hearts.filter (fun x => x ≠ i) }

/-- One firing of the tick interval (lines 121-132): recompute timeLeft
from the elapsed wall-clock time and, at zero, resolve the level through
the stale closure (capturedScore). -/
def onTick (elapsedMs : Nat) (s : GameState) : GameState :=
  match LEVELS.get? s.levelIndex with
  | none => s
  | some lv =>
      let left := tickLeft lv.durationMs elapsedMs
      let s1 := { s with timeLeft := left }
      if left = 0 then endLevel s.capturedScore s.levelIndex s1 else s1

/-- The Quit button on the playing screen (lines 402-412) and the Back
to Start button on the reward screen (lines 320-329): stop both timers,
cancel and drop all hearts, return to the intro screen.  Score and
levelIndex are untouched. -/
def quitToIntro (s : GameState) : GameState :=
  { clearHearts (clearTimers s) with phase := Phase.intro }

/-- Events deliverable on the single JavaScript event queue. -/
inductive Event where
  /-- a button press calling startLevel idx (Start, Retry, Next Level). -/
  | eStart (idx : Nat)
  /-- the tick interval fires with the given elapsed wall-clock ms. -/
  | eTick (elapsedMs : Nat)
  /-- the spawn interval fires. -/
  | eSpawn
  /-- a tap on the heart with id i. -/
  | eTap (i : Nat)
  /-- the fall animation of heart i completes naturally (finished = true). -/
  | eFall (i : Nat)
  /-- the Finish button (line 416): endLevel with the live score. -/
  | eFinish
  /-- the Quit / Back to Start button. -/
  | eQuit
  /-- one deferred setTimeout(clearHearts, 250) from endLevel fires. -/
  | eGrace
deriving DecidableEq

/-- The event-step function.  Interval events require their interval to
be live (a cleared interval never fires); button events require the
screen that shows the button; a deferred clear requires an outstanding
timeout.  Start buttons exist on the intro and reward screens. -/
def step (s : GameState) : Event → GameState
  | Event.eStart idx =>
      if s.phase = Phase.intro ∨ s.phase = Phase.reward then
        startLevelState idx s
      else s
  | Event.eTick el => if s.tickActive then onTick el s else s
  | Event.eSpawn => if s.spawnActive then spawnHeart s else s
  | Event.eTap i => if s.phase = Phase.playing then onTapHeart i s else s
  | Event.eFall i => onFallComplete i s
  | Event.eFinish =>
      if s.phase = Phase.playing then endLevel s.score s.levelIndex s else s
  | Event.eQuit =>
      if s.phase = Phase.playing ∨ s.phase = Phase.reward then quitToIntro s
      else s
  | Event.eGrace =>
      if s.pendingClears = 0 then s
      else { clearHearts s with pendingClears := s.pendingClears - 1 }

/-- Run a list of events in order. -/
def run (s : GameState) : List Event → GameState
  | [] => s
  | e :: es => run (step s e) es

/-- The initial component state (lines 68-78). -/
def initState : GameState :=
  { phase := Phase.intro, levelIndex := 0, score := 0, timeLeft := 0,
    capturedScore := 0, hearts := [], nextId := 0, tickActive := false,
    spawnActive := false, pendingClears := 0, successFeedbacks := 0 }

example : (startLevelState 0 initState).timeLeft = 20 := by decide

example :
    (run initState [Event.eStart 0, Event.eSpawn, Event.eTap 0]).score = 1 := by
  decide

/-! Helper lemmas shared by several claims. -/

/-- Fields of the state endLevel does not touch, and the two timers it
always stops. -/
lemma endLevel_fields (rs idx : Nat) (s : GameState) :
    (endLevel rs idx s).score = s.score ∧
    (endLevel rs idx s).timeLeft = s.timeLeft ∧
    (endLevel rs idx s).levelIndex = s.levelIndex ∧
    (endLevel rs idx s).hearts = s.hearts ∧
    (endLevel rs idx s).capturedScore = s.capturedScore ∧
    (endLevel rs idx s).nextId = s.nextId ∧
    (endLevel rs idx s).tickActive = false ∧
    (endLevel rs idx s).spawnActive = false := by
  unfold endLevel clearTimers
  cases LEVELS.get? idx with
  | none => simp
  | some lv =>
      by_cases h1 : lv.target ≤ rs <;> by_cases h2 : idx < LEVELS.length - 1 <;>
        simp [h1, h2]

/-- When the resolved catalog entry is known, endLevel routes to reward
or proposal by the pass test and the final-level test. -/
lemma endLevel_phase (rs idx : Nat) (s : GameState) (lv : LevelConfig)
    (h : LEVELS.get? idx = some lv) :
    (endLevel rs idx s).phase =
      (if lv.target ≤ rs then
        (if idx < LEVELS.length - 1 then Phase.reward else Phase.proposal)
       else Phase.reward) := by
  unfold endLevel clearTimers
  rw [h]
  by_cases h1 : lv.target ≤ rs <;> by_cases h2 : idx < LEVELS.length - 1 <;>
    simp [h1, h2]

/-- The tick value is antitone in the elapsed time. -/
lemma tickLeft_antitone (d : Nat) {e1 e2 : Nat} (h : e1 ≤ e2) :
    tickLeft d e2 ≤ tickLeft d e1 := by
  unfold tickLeft
  by_cases h2 : d ≤ e2
  · simp [h2]
  · have h1 : ¬ d ≤ e1 := fun hh => h2 (hh.trans h)
    simp only [h1, h2, if_false]
    exact Nat.div_le_div_right
      (Nat.add_le_add_right (Nat.sub_le_sub_left h d) 999)

/-- The tick value hits zero exactly when the level duration has fully
elapsed. -/
lemma tickLeft_eq_zero (d e : Nat) : tickLeft d e = 0 ↔ d ≤ e := by
  unfold tickLeft
  by_cases h : d ≤ e
  · simp [h]
  · simp only [h, if_false, iff_false]
    intro h0
    have hlt : e < d := Nat.lt_of_not_le h
    have h1000 : 1000 ≤ d - e + 999 := by omega
    have : 1 ≤ (d - e + 999) / 1000 := (Nat.one_le_div_iff (by omega)).mpr h1000
    omega

/-! C5 - startLevel resets everything for any prior state. -/

/-- C5: for every valid level index and every prior state, startLevel
returns normally, resets score to 0, resets timeLeft to the new level's
full duration (stored in whole seconds, ceil(durationMs / 1000)),
clears all live hearts, captures the pre-reset score for the tick
closure, starts both timers and enters the playing phase; levelIndex
becomes the requested index and nothing else changes. -/
theorem c5_start_resets (idx : Nat) (s : GameState) (lv : LevelConfig)
    (h : LEVELS.get? idx = some lv) :
    startLevel idx s = CallResult.ok
      { phase := Phase.playing, levelIndex := idx, score := 0,
        timeLeft := (lv.durationMs + 999) / 1000, capturedScore := s.score,
        hearts := [], nextId := s.nextId, tickActive := true,
        spawnActive := true, pendingClears := s.pendingClears,
        successFeedbacks := s.successFeedbacks } := by
  unfold startLevel clearHearts clearTimers
  rw [h]

/-- Witness for c5_start_resets at index 0 from the initial state. -/
theorem c5_start_resets_witness :
    LEVELS.get? 0 = some ⟨1, 20000, 18, 700, 2800⟩ ∧
    startLevel 0 initState = CallResult.ok
      { phase := Phase.playing, levelIndex := 0, score := 0,
        timeLeft := 20, capturedScore := 0, hearts := [], nextId := 0,
        tickActive := true, spawnActive := true, pendingClears := 0,
        successFeedbacks := 0 } :=
  ⟨by decide, c5_start_resets 0 initState ⟨1, 20000, 18, 700, 2800⟩ (by decide)⟩

/-! C2 - an out-of-range start is NOT rejected with state unchanged. -/

/-- A concrete state mid-session: reward screen, level 1, score 7, one
live heart, a live tick timer. -/
def c2state : GameState :=
  { phase := Phase.reward, levelIndex := 1, score := 7, timeLeft := 4,
    capturedScore := 3, hearts := [5], nextId := 6, tickActive := true,
    spawnActive := false, pendingClears := 0, successFeedbacks := 1 }

/-- C2 counterexample: startLevel 3 (out of range for the 3-entry
catalog) throws, but the state at the throw is NOT the original state:
timers and hearts are already cleared and levelIndex and score already
overwritten.  So the claim "state left unchanged" is false on the code. -/
theorem c2_counterexample :
    startLevel 3 c2state = CallResult.threw (startLevelState 3 c2state) ∧
    startLevelState 3 c2state ≠ c2state ∧
    c2state.score = 7 ∧ (startLevelState 3 c2state).score = 0 ∧
    c2state.hearts = [5] ∧ (startLevelState 3 c2state).hearts = [] := by
  decide

/-- C2 amended: a start with an index outside 0 ≤ idx < LEVELS.length
throws a TypeError (reading durationMs of undefined on line 116), so the
level never starts - phase, timeLeft and the counters stay put and no
timer is started - but the state is not fully preserved: both timers are
cleared, all live hearts are cancelled and dropped, levelIndex is set to
the invalid index and score is reset to 0 before the throw. -/
theorem c2_amended (idx : Nat) (s : GameState) (h : LEVELS.length ≤ idx) :
    startLevel idx s = CallResult.threw
      { s with tickActive := false, spawnActive := false, hearts := [],
               levelIndex := idx, score := 0 } := by
  unfold startLevel clearHearts clearTimers
  rw [List.get?_eq_none.mpr h]

/-- Witness for c2_amended at index 3 from the concrete c2state. -/
theorem c2_amended_witness :
    LEVELS.length ≤ 3 ∧
    startLevel 3 c2state = CallResult.threw
      { c2state with tickActive := false, spawnActive := false,
                     hearts := [], levelIndex := 3, score := 0 } :=
  ⟨by decide, c2_amended 3 c2state (by decide)⟩

/-! C10 - quitting mid-level keeps score and levelIndex. -/

/-- C10: the Quit button stops both timers, cancels and removes all live
hearts and returns to the intro screen, while score and levelIndex keep
their values (the record update touches no other field); the score is
reset only by the next startLevel call. -/
theorem c10_quit_preserves_score (s : GameState)
    (hp : s.phase = Phase.playing) :
    step s Event.eQuit =
      { s with phase := Phase.intro, hearts := [],
               tickActive := false, spawnActive := false } ∧
    (step s Event.eQuit).score = s.score ∧
    (step s Event.eQuit).levelIndex = s.levelIndex ∧
    (∀ idx lv, LEVELS.get? idx = some lv →
      (startLevelState idx (step s Event.eQuit)).score = 0) := by
  have hq : step s Event.eQuit =
      { s with phase := Phase.intro, hearts := [],
               tickActive := false, spawnActive := false } := by
    unfold step quitToIntro clearHearts clearTimers
    simp [hp]
  refine ⟨hq, by rw [hq], by rw [hq], ?_⟩
  intro idx lv h
  rw [hq]
  unfold startLevelState startLevel clearHearts clearTimers
  rw [h]

/-- Witness for c10_quit_preserves_score on a mid-level state with
score 12. -/
def c10state : GameState :=
  { phase := Phase.playing, levelIndex := 1, score := 12, timeLeft := 9,
    capturedScore := 0, hearts := [3, 4], nextId := 5, tickActive := true,
    spawnActive := true, pendingClears := 0, successFeedbacks := 0 }

theorem c10_quit_preserves_score_witness :
    step c10state Event.eQuit =
      { c10state with phase := Phase.intro, hearts := [],
                      tickActive := false, spawnActive := false } ∧
    (step c10state Event.eQuit).score = c10state.score ∧
    (step c10state Event.eQuit).levelIndex = c10state.levelIndex ∧
    (∀ idx lv, LEVELS.get? idx = some lv →
      (startLevelState idx (step c10state Event.eQuit)).score = 0) :=
  c10_quit_preserves_score c10state rfl

/-! C8 - a final-level pass routes to a distinct terminal signal. -/

/-- C8: whenever resolution reads a passing score, the final level
(levelIndex = LEVELS.length - 1) routes to the proposal phase while any
non-final level routes to the reward phase, and the two signals are
distinct. -/
theorem c8_final_pass_distinct (s : GameState) (idx rs : Nat)
    (lv : LevelConfig) (h : LEVELS.get? idx = some lv)
    (hpass : lv.target ≤ rs) :
    (idx = LEVELS.length - 1 → (endLevel rs idx s).phase = Phase.proposal) ∧
    (idx < LEVELS.length - 1 → (endLevel rs idx s).phase = Phase.reward) ∧
    Phase.proposal ≠ Phase.reward := by
  have hph := endLevel_phase rs idx s lv h
  refine ⟨?_, ?_, by decide⟩
  · intro hfin
    rw [hph]
    simp [hpass, hfin]
  · intro hlt
    rw [hph]
    simp [hpass, hlt]

/-- Witness for c8_final_pass_distinct: the final level (index 2, target
26) resolved with a reading of 26. -/
theorem c8_final_pass_distinct_witness :
    (2 = LEVELS.length - 1 →
      (endLevel 26 2 initState).phase = Phase.proposal) ∧
    (2 < LEVELS.length - 1 →
      (endLevel 26 2 initState).phase = Phase.reward) ∧
    Phase.proposal ≠ Phase.reward :=
  c8_final_pass_distinct initState 2 26 ⟨3, 22000, 26, 520, 2100⟩
    (by decide) (by decide)

/-! C1 - expiry resolution reads a stale score (code bug). -/

/-- A full final-level attempt: start level 3 (index 2, target 26),
spawn 26 hearts, tap all 26, then the tick interval fires at elapsed
22000 ms (the full duration), resolving the level. -/
def c1trace : List Event :=
  Event.eStart 2 ::
    (List.replicate 26 Event.eSpawn ++
      ((List.range 26).map Event.eTap ++ [Event.eTick 22000]))

/-- C1 evaluated at the failing input: the attempt accumulates score 26,
which meets the target 26 of the final level, yet expiry resolution
computes passed from the score the tick closure captured at startLevel
(0): no success feedback fires and the phase routes to reward (the
retry screen) instead of proposal.  The claim says resolution with
score 26 at or above target 26 yields Passed. -/
theorem c1_stale_resolution :
    (run initState c1trace).score = 26 ∧
    (LEVELS.get? 2).map LevelConfig.target = some 26 ∧
    (run initState c1trace).capturedScore = 0 ∧
    (run initState c1trace).phase = Phase.reward ∧
    (run initState c1trace).successFeedbacks = 0 := by
  set_option maxRecDepth 10000 in decide

/-! C3 - a stray deferred clear from a previous level. -/

/-- Events reaching a freshly restarted level that still has a pending
deferred clearHearts timeout from the previous level resolution: start
level 1, one spawn, Finish (schedules the 250 ms clear), Retry within
the window, one spawn in the new level. -/
def c3trace : List Event :=
  [Event.eStart 0, Event.eSpawn, Event.eFinish, Event.eStart 0, Event.eSpawn]

def c3s1 : GameState := run initState c3trace

/-- C3 counterexample: after the restart the new level is playing with
its own live heart (id 1) and the previous level's deferred clear is
still outstanding; when that stray timeout fires it removes the new
level's heart while the level keeps playing.  So a timer created for a
previous level mutates the state of a subsequently started level. -/
theorem c3_counterexample :
    c3s1.phase = Phase.playing ∧ c3s1.hearts = [1] ∧
    c3s1.pendingClears = 1 ∧
    (step c3s1 Event.eGrace).hearts = [] ∧
    (step c3s1 Event.eGrace).phase = Phase.playing := by
  decide

/-- C3 amended: stopping a level does synchronously stop the countdown
and the spawner (endLevel and quit both clear the intervals), quitting
also cancels every live animator at once, and startLevel cancels every
remaining animator before the new level begins; but the deferred 250 ms
clearHearts timeout scheduled at resolution is never cancelled, and
while one is outstanding it fires as a stray event that cancels and
removes ALL live hearts - including those of a level started inside the
window. -/
theorem c3_amended (s : GameState) (rs idx : Nat)
    (hpc : 0 < s.pendingClears) :
    (endLevel rs idx s).tickActive = false ∧
    (endLevel rs idx s).spawnActive = false ∧
    (quitToIntro s).tickActive = false ∧
    (quitToIntro s).spawnActive = false ∧
    (quitToIntro s).hearts = [] ∧
    (startLevelState idx s).hearts = [] ∧
    step s Event.eGrace =
      { s with hearts := [], pendingClears := s.pendingClears - 1 } := by
  obtain ⟨-, -, -, -, -, -, h7, h8⟩ := endLevel_fields rs idx s
  refine ⟨h7, h8, rfl, rfl, rfl, ?_, ?_⟩
  · unfold startLevelState startLevel clearHearts clearTimers
    cases LEVELS.get? idx <;> rfl
  · unfold step clearHearts
    simp [Nat.ne_of_gt hpc]

/-- Witness for c3_amended at the concrete post-restart state c3s1. -/
theorem c3_amended_witness :
    0 < c3s1.pendingClears ∧
    ((endLevel 0 0 c3s1).tickActive = false ∧
     (endLevel 0 0 c3s1).spawnActive = false ∧
     (quitToIntro c3s1).tickActive = false ∧
     (quitToIntro c3s1).spawnActive = false ∧
     (quitToIntro c3s1).hearts = [] ∧
     (startLevelState 0 c3s1).hearts = [] ∧
     step c3s1 Event.eGrace =
       { c3s1 with hearts := [], pendingClears := c3s1.pendingClears - 1 }) :=
  ⟨by decide, c3_amended c3s1 0 0 (by decide)⟩

/-! C4 - tap and natural completion are mutually exclusive per heart. -/

/-- C4: for a live heart, a tap removes it and adds exactly one point
while a natural fall completion removes it silently; after either, the
other path is a complete no-op (cancellation suppresses the completion,
and a completion leaves nothing to tap), and a repeated completion is
also a no-op - so exactly one of the two effects happens per heart and
whichever happened is final. -/
theorem c4_tap_fall_exclusive (s : GameState) (i : Nat)
    (hp : s.phase = Phase.playing) (hi : i ∈ s.hearts) :
    (step s (Event.eTap i)).score = s.score + 1 ∧
    i ∉ (step s (Event.eTap i)).hearts ∧
    (step s (Event.eFall i)).score = s.score ∧
    i ∉ (step s (Event.eFall i)).hearts ∧
    step (step s (Event.eTap i)) (Event.eFall i) = step s (Event.eTap i) ∧
    step (step s (Event.eFall i)) (Event.eTap i) = step s (Event.eFall i) ∧
    step (step s (Event.eFall i)) (Event.eFall i) = step s (Event.eFall i) := by
  have htap : step s (Event.eTap i) =
      { s with hearts := s.hearts.filter (fun x => x ≠ i),
               score := s.score + 1 } := by
    unfold step onTapHeart
    simp [hp, hi]
  have hfall : step s (Event.eFall i) =
      { s with hearts := s.hearts.filter (fun x => x ≠ i) } := by
    unfold step onFallComplete
    rfl
  have hmem : i ∉ s.hearts.filter (fun x => x ≠ i) := by
    simp [List.mem_filter]
  have hfilt : (s.hearts.filter (fun x => x ≠ i)).filter (fun x => x ≠ i) =
      s.hearts.filter (fun x => x ≠ i) := by
    rw [List.filter_filter]
    apply List.filter_congr
    intro x _
    exact Bool.and_self _
  refine ⟨by rw [htap], by rw [htap]; exact hmem,
          by rw [hfall], by rw [hfall]; exact hmem, ?_, ?_, ?_⟩
  · rw [htap]
    unfold step onFallComplete
    simp only
    rw [hfilt]
  · rw [hfall]
    unfold step onTapHeart
    simp [hp, hmem]
  · rw [hfall]
    unfold step onFallComplete
    simp only
    rw [hfilt]

/-- Concrete mid-level state with two live hearts for the C4 and C7
witnesses. -/
def c4state : GameState :=
  { phase := Phase.playing, levelIndex := 0, score := 3, timeLeft := 11,
    capturedScore := 0, hearts := [7, 8], nextId := 9, tickActive := true,
    spawnActive := true, pendingClears := 0, successFeedbacks := 0 }

theorem c4_tap_fall_exclusive_witness :
    (7 ∈ c4state.hearts) ∧
    ((step c4state (Event.eTap 7)).score = c4state.score + 1 ∧
     7 ∉ (step c4state (Event.eTap 7)).hearts ∧
     (step c4state (Event.eFall 7)).score = c4state.score ∧
     7 ∉ (step c4state (Event.eFall 7)).hearts ∧
     step (step c4state (Event.eTap 7)) (Event.eFall 7) =
       step c4state (Event.eTap 7) ∧
     step (step c4state (Event.eFall 7)) (Event.eTap 7) =
       step c4state (Event.eFall 7) ∧
     step (step c4state (Event.eFall 7)) (Event.eFall 7) =
       step c4state (Event.eFall 7)) :=
  ⟨by decide, c4_tap_fall_exclusive c4state 7 rfl (by decide)⟩

/-! C7 - taps: present id scores once, absent id is a silent no-op. -/

/-- C7: while playing, tapping a live heart removes exactly that heart
and increments the score by exactly 1; a tap on an id that is not live
(already tapped, already expired, or never spawned) leaves the whole
state unchanged and raises no error (the handler is a total function
returning the same state); hence tapping the same id twice scores
exactly once. -/
theorem c7_tap_idempotent (s : GameState) (i : Nat)
    (hp : s.phase = Phase.playing) :
    (i ∈ s.hearts →
      (step s (Event.eTap i)).score = s.score + 1 ∧
      (step s (Event.eTap i)).hearts = s.hearts.filter (fun x => x ≠ i) ∧
      step (step s (Event.eTap i)) (Event.eTap i) = step s (Event.eTap i) ∧
      (step (step s (Event.eTap i)) (Event.eTap i)).score = s.score + 1) ∧
    (i ∉ s.hearts → step s (Event.eTap i) = s) := by
  constructor
  · intro hi
    have htap : step s (Event.eTap i) =
        { s with hearts := s.hearts.filter (fun x => x ≠ i),
                 score := s.score + 1 } := by
      unfold step onTapHeart
      simp [hp, hi]
    have hmem : i ∉ s.hearts.filter (fun x => x ≠ i) := by
      simp [List.mem_filter]
    have hsecond : step (step s (Event.eTap i)) (Event.eTap i) =
        step s (Event.eTap i) := by
      rw [htap]
      unfold step onTapHeart
      simp [hp, hmem]
    refine ⟨by rw [htap], by rw [htap], hsecond, ?_⟩
    rw [hsecond, htap]
  · intro hi
    unfold step onTapHeart
    simp [hp, hi]

theorem c7_tap_idempotent_witness :
    ((8 ∈ c4state.hearts →
      (step c4state (Event.eTap 8)).score = c4state.score + 1 ∧
      (step c4state (Event.eTap 8)).hearts =
        c4state.hearts.filter (fun x => x ≠ 8) ∧
      step (step c4state (Event.eTap 8)) (Event.eTap 8) =
        step c4state (Event.eTap 8) ∧
      (step (step c4state (Event.eTap 8)) (Event.eTap 8)).score =
        c4state.score + 1) ∧
    (8 ∉ c4state.hearts → step c4state (Event.eTap 8) = c4state)) ∧
    step c4state (Event.eTap 99) = c4state :=
  ⟨c7_tap_idempotent c4state 8 rfl,
   (c7_tap_idempotent c4state 99 rfl).2 (by decide)⟩

/-! C6 - the tick formula stores ceiled whole seconds, not raw ms. -/

/-- C6 counterexample: one tick at elapsed 1000 ms into level 1
(duration 20000 ms) stores remaining time 19 (whole seconds), not
max(0, 20000 - 1000) = 19000 as the claim's formula states. -/
theorem c6_counterexample :
    (step (startLevelState 0 initState) (Event.eTick 1000)).timeLeft = 19 ∧
    (step (startLevelState 0 initState) (Event.eTick 1000)).timeLeft ≠
      max 0 (20000 - 1000) := by
  decide

/-- C6 amended: while a level is running each live tick stores the
remaining time in whole seconds as max(0, ceil((durationMs -
elapsedMs) / 1000)) - the expression tickLeft - rather than the raw
millisecond difference; that stored value reaches 0 exactly when
elapsedMs has reached durationMs, and on that tick the clock and the
spawner are stopped and the session transitions to a resolved phase
(reward or proposal). -/
theorem c6_amended (s : GameState) (lv : LevelConfig) (el : Nat)
    (hp : s.phase = Phase.playing) (ht : s.tickActive = true)
    (h : LEVELS.get? s.levelIndex = some lv) :
    (step s (Event.eTick el)).timeLeft = tickLeft lv.durationMs el ∧
    (tickLeft lv.durationMs el = 0 ↔ lv.durationMs ≤ el) ∧
    (lv.durationMs ≤ el →
      (step s (Event.eTick el)).tickActive = false ∧
      (step s (Event.eTick el)).spawnActive = false ∧
      ((step s (Event.eTick el)).phase = Phase.reward ∨
       (step s (Event.eTick el)).phase = Phase.proposal)) := by
  have hstep : step s (Event.eTick el) =
      (if tickLeft lv.durationMs el = 0 then
        endLevel s.capturedScore s.levelIndex
          { s with timeLeft := tickLeft lv.durationMs el }
       else { s with timeLeft := tickLeft lv.durationMs el }) := by
    simp only [step, ht, if_true, onTick, h]
  refine ⟨?_, tickLeft_eq_zero lv.durationMs el, ?_⟩
  · rw [hstep]
    by_cases h0 : tickLeft lv.durationMs el = 0
    · rw [if_pos h0]
      exact (endLevel_fields _ _ _).2.1
    · rw [if_neg h0]
  · intro hel
    have h0 : tickLeft lv.durationMs el = 0 :=
      (tickLeft_eq_zero lv.durationMs el).mpr hel
    rw [hstep, if_pos h0]
    obtain ⟨-, -, -, -, -, -, h7, h8⟩ :=
      endLevel_fields s.capturedScore s.levelIndex
        { s with timeLeft := tickLeft lv.durationMs el }
    refine ⟨h7, h8, ?_⟩
    rw [endLevel_phase s.capturedScore s.levelIndex _ lv h]
    by_cases h1 : lv.target ≤ s.capturedScore <;>
      by_cases h2 : s.levelIndex < LEVELS.length - 1 <;> simp [h1, h2]

/-- Witness for c6_amended: the expiring tick of a fresh level 1. -/
theorem c6_amended_witness :
    (step (startLevelState 0 initState) (Event.eTick 20000)).timeLeft =
      tickLeft 20000 20000 ∧
    (tickLeft 20000 20000 = 0 ↔ (20000 : Nat) ≤ 20000) ∧
    ((20000 : Nat) ≤ 20000 →
      (step (startLevelState 0 initState) (Event.eTick 20000)).tickActive =
        false ∧
      (step (startLevelState 0 initState) (Event.eTick 20000)).spawnActive =
        false ∧
      ((step (startLevelState 0 initState) (Event.eTick 20000)).phase =
        Phase.reward ∨
       (step (startLevelState 0 initState) (Event.eTick 20000)).phase =
        Phase.proposal)) :=
  c6_amended (startLevelState 0 initState) ⟨1, 20000, 18, 700, 2800⟩ 20000
    rfl rfl (by decide)

/-! C9 - monotonicity of score and remaining time along a run. -/

/-- elapsed value carried by a tick event, if any. -/
def tickVal : Event → Option Nat
  | Event.eTick el => some el
  | _ => none

/-- an event the UI can deliver while a level is running: everything
except a start button, which exists only on the intro and reward
screens. -/
def runningEvent : Event → Bool
  | Event.eStart _ => false
  | _ => true

/-- the elapsed values of the tick events in the list are bounded below
by e0 and non-decreasing (wall-clock monotonicity of one interval). -/
def ticksMono (e0 : Nat) : List Event → Bool
  | [] => true
  | e :: es =>
      match tickVal e with
      | some el => decide (e0 ≤ el) && ticksMono el es
      | none => ticksMono e0 es

/-- the elapsed value of the last tick event in the list, defaulting
to e0. -/
def lastTick (e0 : Nat) : List Event → Nat
  | [] => e0
  | e :: es =>
      match tickVal e with
      | some el => lastTick el es
      | none => lastTick e0 es

/-- durationMs of the catalog entry the session currently points at. -/
def durOf (s : GameState) : Nat :=
  match LEVELS.get? s.levelIndex with
  | some lv => lv.durationMs
  | none => 0

/-- Every running-deliverable non-tick event keeps the score from
decreasing and leaves timeLeft and levelIndex unchanged. -/
lemma step_nontick (s : GameState) (e : Event)
    (h1 : runningEvent e = true) (h2 : tickVal e = none) :
    s.score ≤ (step s e).score ∧ (step s e).timeLeft = s.timeLeft ∧
    (step s e).levelIndex = s.levelIndex := by
  cases e with
  | eStart idx => simp [runningEvent] at h1
  | eTick el => simp [tickVal] at h2
  | eSpawn =>
      simp only [step, spawnHeart]
      split <;> simp
  | eTap i =>
      simp only [step, onTapHeart]
      split
      · split <;> simp
      · simp
  | eFall i =>
      simp only [step, onFallComplete]
      simp
  | eFinish =>
      simp only [step]
      split
      · obtain ⟨a, b, c, -⟩ := endLevel_fields s.score s.levelIndex s
        exact ⟨le_of_eq a.symm, b, c⟩
      · simp
  | eQuit =>
      simp only [step, quitToIntro, clearHearts, clearTimers]
      split <;> simp
  | eGrace =>
      simp only [step, clearHearts]
      split <;> simp

/-- A tick event keeps score and levelIndex and either leaves timeLeft
unchanged (dead interval or dangling index) or stores the recomputed
tick value. -/
lemma step_tick (s : GameState) (el : Nat) :
    (step s (Event.eTick el)).score = s.score ∧
    (step s (Event.eTick el)).levelIndex = s.levelIndex ∧
    ((step s (Event.eTick el)).timeLeft = s.timeLeft ∨
     (step s (Event.eTick el)).timeLeft = tickLeft (durOf s) el) := by
  by_cases ht : s.tickActive = true
  · have hstep : step s (Event.eTick el) = onTick el s := by
      simp [step, ht]
    rw [hstep]
    unfold onTick durOf
    cases hg : LEVELS.get? s.levelIndex with
    | none => simp
    | some lv =>
        simp only
        by_cases h0 : tickLeft lv.durationMs el = 0
        · rw [if_pos h0]
          obtain ⟨a, b, c, -⟩ := endLevel_fields s.capturedScore s.levelIndex
            { s with timeLeft := tickLeft lv.durationMs el }
          exact ⟨a, c, Or.inr b⟩
        · rw [if_neg h0]
          exact ⟨rfl, rfl, Or.inr rfl⟩
  · simp [step, ht]

lemma run_append (s : GameState) (l1 l2 : List Event) :
    run s (l1 ++ l2) = run (run s l1) l2 := by
  induction l1 generalizing s with
  | nil => rfl
  | cons e es ih => simp [run, ih]

lemma ticksMono_append (l1 l2 : List Event) : ∀ e0 : Nat,
    ticksMono e0 (l1 ++ l2) = true →
    ticksMono e0 l1 = true ∧ ticksMono (lastTick e0 l1) l2 = true := by
  induction l1 with
  | nil => exact fun e0 h => ⟨rfl, h⟩
  | cons e es ih =>
      intro e0 h
      rw [List.cons_append] at h
      cases hv : tickVal e with
      | none =>
          have h2 : ticksMono e0 (es ++ l2) = true := by
            simpa [ticksMono, hv] using h
          obtain ⟨ha, hb⟩ := ih e0 h2
          exact ⟨by simpa [ticksMono, hv] using ha, by simpa [lastTick, hv] using hb⟩
      | some el =>
          rw [show ticksMono e0 (e :: (es ++ l2)) =
                (decide (e0 ≤ el) && ticksMono el (es ++ l2)) by
              simp [ticksMono, hv],
            Bool.and_eq_true] at h
          obtain ⟨hle, h2⟩ := h
          obtain ⟨ha, hb⟩ := ih el h2
          constructor
          · rw [show ticksMono e0 (e :: es) =
                  (decide (e0 ≤ el) && ticksMono el es) by simp [ticksMono, hv],
              Bool.and_eq_true]
            exact ⟨hle, ha⟩
          · simpa [lastTick, hv] using hb

/-- Main induction for C9: along a run of running-deliverable events
whose tick elapsed values are monotone, the score never decreases and
timeLeft never increases; the level index (hence the duration) is
stable and the tick bound is re-established at the end state. -/
lemma run_mono (es : List Event) : ∀ (s : GameState) (e0 : Nat),
    es.all runningEvent = true → ticksMono e0 es = true →
    tickLeft (durOf s) e0 ≤ s.timeLeft →
    s.score ≤ (run s es).score ∧ (run s es).timeLeft ≤ s.timeLeft ∧
    durOf (run s es) = durOf s ∧
    tickLeft (durOf s) (lastTick e0 es) ≤ (run s es).timeLeft := by
  induction es with
  | nil =>
      intro s e0 _ _ hinv
      exact ⟨le_refl _, le_refl _, rfl, hinv⟩
  | cons e es ih =>
      intro s e0 hall hmono hinv
      rw [List.all_cons, Bool.and_eq_true] at hall
      obtain ⟨hre, hall⟩ := hall
      cases hv : tickVal e with
      | none =>
          obtain ⟨h1, h2, h3⟩ := step_nontick s e hre hv
          have hdur : durOf (step s e) = durOf s := by
            unfold durOf
            rw [h3]
          have hmono2 : ticksMono e0 es = true := by
            simpa [ticksMono, hv] using hmono
          have hlast : lastTick e0 (e :: es) = lastTick e0 es := by
            simp [lastTick, hv]
          have hinv2 : tickLeft (durOf (step s e)) e0 ≤ (step s e).timeLeft := by
            rw [hdur, h2]
            exact hinv
          obtain ⟨a, b, c, d⟩ := ih (step s e) e0 hall hmono2 hinv2
          rw [show run s (e :: es) = run (step s e) es from rfl]
          refine ⟨h1.trans a, b.trans (le_of_eq h2), c.trans hdur, ?_⟩
          rw [hlast, ← hdur]
          exact d
      | some el =>
          have he : e = Event.eTick el := by
            cases e <;> simp_all [tickVal]
          subst he
          rw [show ticksMono e0 (Event.eTick el :: es) =
                (decide (e0 ≤ el) && ticksMono el es) by simp [ticksMono, tickVal],
            Bool.and_eq_true, decide_eq_true_eq] at hmono
          obtain ⟨hel, hmono2⟩ := hmono
          obtain ⟨h1, h3, htl⟩ := step_tick s el
          have hdur : durOf (step s (Event.eTick el)) = durOf s := by
            unfold durOf
            rw [h3]
          have hchain : tickLeft (durOf s) el ≤ s.timeLeft :=
            (tickLeft_antitone (durOf s) hel).trans hinv
          have h2le : (step s (Event.eTick el)).timeLeft ≤ s.timeLeft := by
            cases htl with
            | inl hh => exact le_of_eq hh
            | inr hh => exact hh.trans_le hchain
          have hinv2 : tickLeft (durOf (step s (Event.eTick el))) el ≤
              (step s (Event.eTick el)).timeLeft := by
            rw [hdur]
            cases htl with
            | inl hh => rw [hh]; exact hchain
            | inr hh => rw [hh]
          obtain ⟨a, b, c, d⟩ := ih (step s (Event.eTick el)) el hall hmono2 hinv2
          rw [show run s (Event.eTick el :: es) =
                run (step s (Event.eTick el)) es from rfl]
          refine ⟨le_of_eq h1.symm |>.trans a, b.trans h2le, c.trans hdur, ?_⟩
          rw [show lastTick e0 (Event.eTick el :: es) = lastTick el es by
              simp [lastTick, tickVal],
            ← hdur]
          exact d

/-- C9: for every sequence of events deliverable while a level is
running (no start button exists there) whose tick events carry
monotone elapsed times, and from any running state whose stored
timeLeft dominates the current tick bound (as a fresh startLevel state
does), the score is monotonically non-decreasing and the stored
remaining time monotonically non-increasing along the run: every
prefix has a score no larger and a timeLeft no smaller than the full
run. -/
theorem c9_running_monotone (s : GameState) (e0 : Nat) (l1 l2 : List Event)
    (hphase : s.phase = Phase.playing)
    (hall : (l1 ++ l2).all runningEvent = true)
    (hmono : ticksMono e0 (l1 ++ l2) = true)
    (hinv : tickLeft (durOf s) e0 ≤ s.timeLeft) :
    (run s l1).score ≤ (run s (l1 ++ l2)).score ∧
    (run s (l1 ++ l2)).timeLeft ≤ (run s l1).timeLeft := by
  rw [List.all_append, Bool.and_eq_true] at hall
  obtain ⟨hall1, hall2⟩ := hall
  obtain ⟨hm1, hm2⟩ := ticksMono_append l1 l2 e0 hmono
  obtain ⟨-, -, hd1, hi1⟩ := run_mono l1 s e0 hall1 hm1 hinv
  have hinv2 : tickLeft (durOf (run s l1)) (lastTick e0 l1) ≤
      (run s l1).timeLeft := by
    rw [hd1]
    exact hi1
  obtain ⟨a2, b2, -, -⟩ :=
    run_mono l2 (run s l1) (lastTick e0 l1) hall2 hm2 hinv2
  rw [run_append]
  exact ⟨a2, b2⟩

/-- Concrete instance for the C9 witness: a fresh level 1, a spawn, a
scoring tap and two ticks at 250 ms and 600 ms. -/
def c9s : GameState := startLevelState 0 initState

def c9l1 : List Event := [Event.eSpawn, Event.eTap 0, Event.eTick 250]

def c9l2 : List Event := [Event.eSpawn, Event.eTick 600]

theorem c9_running_monotone_witness :
    (c9s.phase = Phase.playing ∧
     (c9l1 ++ c9l2).all runningEvent = true ∧
     ticksMono 0 (c9l1 ++ c9l2) = true ∧
     tickLeft (durOf c9s) 0 ≤ c9s.timeLeft) ∧
    ((run c9s c9l1).score ≤ (run c9s (c9l1 ++ c9l2)).score ∧
     (run c9s (c9l1 ++ c9l2)).timeLeft ≤ (run c9s c9l1).timeLeft) :=
  ⟨⟨by decide, by decide, by decide, by decide⟩,
   c9_running_monotone c9s 0 c9l1 c9l2 (by decide) (by decide) (by decide)
     (by decide)⟩
